import Mathlib

/-!
# Ring leader election — shallow embedding

A shallow embedding of the ring leader-election simulator (`src/main.rs`):
a fixed ring of `N` members circulates a self-marking ballot; a
liveness-probing routing layer (`send`) bypasses inactive members; results,
toggles and the end signal travel along the fixed ring successor
(`sim_force_send`).

Channels are modelled as an emitted trace of events (`Event`): each call to
a `Sender` becomes an `Event.sendTo dest msg` (member fabric) or
`Event.simSend msg` (member → driver channel).  Whether a pinged candidate
answers `Pong` within the probe timeout is abstracted as an oracle
`pong : Nat → Bool`.  Fallible Rust functions (`Result`) return
`Except Err _`; a Rust `panic!`/`unwrap` failure is the distinguished error
`Err.panicked`.  The ring size `RING_SIZE` (a compile-time constant, 3 in
the source) is carried as a parameter `N`.
-/

/-- Messages of the member fabric (`enum Msg` in the source).  A ballot
`Election body` carries the fixed-size boolean vector `[bool; RING_SIZE]`,
modelled as a `List Bool` of length `N`. -/
inductive Msg where
  | Ping (s_id : Nat)
  | Pong
  | Election (body : List Bool)
  | ElectionResult (id : Nat)
  | SimToggle (id : Nat)
  | SimEnd
deriving DecidableEq, Repr

/-- Messages on the member → driver channel (`enum SimMsg`). -/
inductive SimMsg where
  | ConfirmToggle (id : Nat) (active : Bool)
  | ElectionResult (id : Nat)
deriving DecidableEq, Repr

/-- A single observable channel operation. -/
inductive Event where
  | sendTo (dest : Nat) (msg : Msg)
  | simSend (msg : SimMsg)
deriving DecidableEq, Repr

/-- Errors: `Err.msg s` models `bail!`/`Error::msg` with message `s`;
`Err.panicked` models a Rust panic (a failed `unwrap`). -/
inductive Err where
  | msg (s : String)
  | panicked
deriving DecidableEq, Repr

/-- The mutable per-member state of `struct RingMember` (the channel handles
`ss`, `sim_s`, `r` live in the trace model instead). -/
structure RingMember where
  id : Nat
  sim_active : Bool
  next_id : Nat
  coord_id : Nat
deriving DecidableEq, Repr

/-- `Msg::election()`: a fresh all-false ballot. -/
def Msg.election (N : Nat) : Msg :=
  Msg.Election (List.replicate N false)

/-- The candidate order probed by `RingMember::send`:
`(0..RING_SIZE).skip(self.id + 1).chain(0..self.id)`. -/
def ringOrder (N id : Nat) : List Nat :=
  (List.range N).drop (id + 1) ++ List.range id

/-- The probe loop body of `RingMember::send`: ping each candidate in turn;
the first candidate for which the `pong` oracle answers gets the payload. -/
def sendLoop (m : RingMember) (pong : Nat → Bool) (msg : Msg) :
    List Nat → List Event × Except Err Unit
  | [] => ([], Except.error (Err.msg "No response"))
  | i :: rest =>
    let pingEv := Event.sendTo i (Msg.Ping m.id)
    if pong i then
      ([pingEv, Event.sendTo i msg], Except.ok ())
    else
      let r := sendLoop m pong msg rest
      (pingEv :: r.1, r.2)

/-- `RingMember::send`: send a message to the first active member ringwise,
probing candidates in `ringOrder` and failing with "No response" when the
full ring is exhausted. -/
def RingMember.send (N : Nat) (m : RingMember) (pong : Nat → Bool) (msg : Msg) :
    List Event × Except Err Unit :=
  sendLoop m pong msg (ringOrder N m.id)

/-- `RingMember::sim_force_send`: unconditional relay to the fixed ring
successor `next_id`. -/
def RingMember.sim_force_send (m : RingMember) (msg : Msg) : List Event :=
  [Event.sendTo m.next_id msg]

/-- The winner computation in `RingMember::vote`:
`body.iter().enumerate().filter(|(_, b)| **b).map(|(i, _)| i).min()`. -/
def ballotWinner (body : List Bool) : Option Nat :=
  (((body.enum).filter (fun p => p.2)).map (fun p => p.1)).min?

/-- `RingMember::vote`: vote for the next coordinator or end the election if
that has already been done.  `vote` does not mutate the member state (its
only writes are to the local ballot copy), so it returns just the emitted
events and the `Result`. -/
def RingMember.vote (N : Nat) (m : RingMember) (pong : Nat → Bool)
    (body : List Bool) : List Event × Except Err Unit :=
  if m.sim_active = false ∧ body = List.replicate N false then
    -- inactive member, fresh election: relay the untouched ballot
    -- (`self.send(...)?; return Ok(())`).
    m.send N pong (Msg.Election body)
  else
    -- the tail of `vote`: elect the lowest id who voted and force the
    -- result forward; `.min().unwrap()` panics on an all-false ballot.
    let finish : List Bool → List Event → List Event × Except Err Unit :=
      fun b evs =>
        match ballotWinner b with
        | none => (evs, Except.error Err.panicked)
        | some w => (evs ++ m.sim_force_send (Msg.ElectionResult w), Except.ok ())
    if body.getD m.id false = false then
      let body2 := body.set m.id true
      let res := m.send N pong (Msg.Election body2)
      match res.2 with
      | Except.ok _ => res
      | Except.error _ => finish body2 res.1
    else
      finish body []

/-- `RingMember::update_coord`: update the coordinator id based on the
election results; returns the new state and the emitted events. -/
def RingMember.update_coord (m : RingMember) (id : Nat) :
    RingMember × List Event :=
  if m.coord_id = id then
    (m, [Event.simSend (SimMsg.ElectionResult id)])
  else
    ({ m with coord_id := id }, m.sim_force_send (Msg.ElectionResult id))

/-- `RingMember::toggle`: toggle active/inactive if the target is self, else
send the message forward. -/
def RingMember.toggle (m : RingMember) (id : Nat) : RingMember × List Event :=
  if id ≠ m.id then
    (m, m.sim_force_send (Msg.SimToggle id))
  else
    let m2 := { m with sim_active := !m.sim_active }
    (m2, [Event.simSend (SimMsg.ConfirmToggle m.id m2.sim_active)])

/-- `RingMember::handle_msg`: dispatch one inbound message; returns the new
state, the emitted events and `Ok(continue?)` (`false` stops the run loop). -/
def RingMember.handle_msg (N : Nat) (m : RingMember) (pong : Nat → Bool)
    (msg : Msg) : RingMember × List Event × Except Err Bool :=
  match msg with
  | Msg.Ping s_id =>
    if m.sim_active = false then
      (m, [], Except.ok true)
    else
      (m, [Event.sendTo s_id Msg.Pong], Except.ok true)
  | Msg.Pong => (m, [], Except.ok true)
  | Msg.Election body =>
    let r := m.vote N pong body
    (m, r.1, r.2.map (fun _ => true))
  | Msg.ElectionResult id =>
    let r := m.update_coord id
    (r.1, r.2, Except.ok true)
  | Msg.SimToggle id =>
    let r := m.toggle id
    (r.1, r.2, Except.ok true)
  | Msg.SimEnd =>
    (m, [Event.sendTo m.next_id Msg.SimEnd], Except.ok false)

/-- `struct SimSeq`: a sequence of alternating waits and toggles for the
simulator. -/
structure SimSeq where
  toggles : List Nat
  waits : List Nat
deriving DecidableEq, Repr

/-- `SimSeq::new`: reject unequal toggle/wait sequence lengths. -/
def SimSeq.new (toggles : List Nat) (waits : List Nat) : Except Err SimSeq :=
  if toggles.length ≠ waits.length then
    Except.error (Err.msg "Number of toggles must be equal to the number of waits")
  else
    Except.ok { toggles := toggles, waits := waits }

/-- One step of the character scan in `SimSeq::from_file`: skip spaces and
newlines; a digit at an index divisible by 4 is a wait, at an index divisible
by 2 but not 4 a toggle; everything else is skipped.  (Rust's
`char::is_numeric` + `to_digit(10).unwrap()` is modelled on ASCII digits.)
The accumulator is the pair `(toggles, waits)`. -/
def parseStep (acc : List Nat × List Nat) (ic : Nat × Char) :
    List Nat × List Nat :=
  let i := ic.1
  let c := ic.2
  if c = ' ' ∨ c = Char.ofNat 10 then acc
  else if c.isDigit ∧ i % 4 = 0 then (acc.1, acc.2 ++ [c.toNat - 48])
  else if c.isDigit ∧ i % 2 = 0 then (acc.1 ++ [c.toNat - 48], acc.2)
  else acc

/-- The full character scan of `SimSeq::from_file` over the file contents:
returns the accumulated `(toggles, waits)`. -/
def parseSim (contents : String) : List Nat × List Nat :=
  contents.toList.enum.foldl parseStep ([], [])

/-- `SimSeq::from_file` (file IO aside): scan the contents, then
`Ok(SimSeq::new(toggles, waits).unwrap())` — the `unwrap` panics when the
scan produced unequal lengths. -/
def SimSeq.from_file (contents : String) : Except Err SimSeq :=
  let tw := parseSim contents
  match SimSeq.new tw.1 tw.2 with
  | Except.error _ => Except.error Err.panicked
  | Except.ok s => Except.ok s

lemma getD_true_iff {body : List Bool} {w : Nat} :
    body.getD w false = true ↔ body[w]? = some true := by
  rw [List.getD_eq_getElem?_getD]
  cases h : body[w]? <;> simp [h]

lemma mem_winnerList {body : List Bool} {w : Nat} :
    w ∈ (((body.enum).filter (fun p => p.2)).map (fun p => p.1)) ↔
      body.getD w false = true := by
  rw [getD_true_iff]
  simp only [List.mem_map, List.mem_filter]
  constructor
  · rintro ⟨⟨i, b⟩, ⟨hmem, hb⟩, rfl⟩
    simp only [decide_eq_true_eq] at hb
    subst hb
    exact List.mk_mem_enum_iff_getElem?.mp hmem
  · intro h
    exact ⟨(w, true), ⟨List.mk_mem_enum_iff_getElem?.mpr h, by simp⟩, rfl⟩

lemma ballotWinner_eq_some {body : List Bool} {w : Nat}
    (h : ballotWinner body = some w) :
    body.getD w false = true ∧ ∀ i, body.getD i false = true → w ≤ i := by
  unfold ballotWinner at h
  rw [List.min?_eq_some_iff (fun a => Nat.le_refl a)
    (fun a b => min_choice a b) (fun a b c => le_min_iff)] at h
  obtain ⟨hmem, hmin⟩ := h
  exact ⟨mem_winnerList.mp hmem, fun i hi => hmin i (mem_winnerList.mpr hi)⟩

lemma ballotWinner_isSome {body : List Bool} {j : Nat}
    (h : body.getD j false = true) : ∃ w, ballotWinner body = some w := by
  have hmem : j ∈ (((body.enum).filter (fun p => p.2)).map (fun p => p.1)) :=
    mem_winnerList.mpr h
  have := List.isSome_min?_of_mem hmem
  unfold ballotWinner
  exact Option.isSome_iff_exists.mp this

lemma sendLoop_all_false (m : RingMember) (pong : Nat → Bool) (msg : Msg) :
    ∀ cs : List Nat, (∀ x ∈ cs, pong x = false) →
      sendLoop m pong msg cs
        = (cs.map (fun i => Event.sendTo i (Msg.Ping m.id)),
           Except.error (Err.msg "No response"))
  | [], _ => rfl
  | i :: rest, h => by
    have hi : pong i = false := h i (List.mem_cons_self i rest)
    have ih := sendLoop_all_false m pong msg rest
      (fun x hx => h x (List.mem_cons_of_mem i hx))
    simp [sendLoop, hi, ih]

lemma sendLoop_first_pong (m : RingMember) (pong : Nat → Bool) (msg : Msg) :
    ∀ (pre : List Nat) (c : Nat) (post : List Nat),
      (∀ x ∈ pre, pong x = false) → pong c = true →
      sendLoop m pong msg (pre ++ c :: post)
        = (pre.map (fun i => Event.sendTo i (Msg.Ping m.id))
            ++ [Event.sendTo c (Msg.Ping m.id), Event.sendTo c msg],
           Except.ok ())
  | [], c, post, _, hc => by simp [sendLoop, hc]
  | i :: pre, c, post, h, hc => by
    have hi : pong i = false := h i (List.mem_cons_self i pre)
    have ih := sendLoop_first_pong m pong msg pre c post
      (fun x hx => h x (List.mem_cons_of_mem i hx)) hc
    simp [sendLoop, hi, ih]

lemma exists_first_pong (pong : Nat → Bool) :
    ∀ cs : List Nat, (∃ c ∈ cs, pong c = true) →
      ∃ pre c post, cs = pre ++ c :: post ∧
        (∀ x ∈ pre, pong x = false) ∧ pong c = true
  | [], h => absurd h (by simp)
  | i :: rest, h => by
    cases hi : pong i with
    | true => exact ⟨[], i, rest, rfl, by simp, hi⟩
    | false =>
      obtain ⟨c, hc, hct⟩ := h
      rcases List.mem_cons.mp hc with rfl | hcr
      · rw [hi] at hct; exact absurd hct (by simp)
      · obtain ⟨pre, c2, post, heq, hpre, hc2⟩ :=
          exists_first_pong pong rest ⟨c, hcr, hct⟩
        exact ⟨i :: pre, c2, post, by simp [heq],
          fun x hx => by
            rcases List.mem_cons.mp hx with rfl | hxr
            · exact hi
            · exact hpre x hxr, hc2⟩

lemma sendLoop_result (m : RingMember) (pong : Nat → Bool) (msg : Msg) :
    ∀ cs : List Nat,
      (sendLoop m pong msg cs).2 = Except.ok () ∨
        (sendLoop m pong msg cs).2 = Except.error (Err.msg "No response")
  | [] => Or.inr rfl
  | i :: rest => by
    cases hi : pong i with
    | true => left; simp [sendLoop, hi]
    | false =>
      have ih := sendLoop_result m pong msg rest
      simpa [sendLoop, hi] using ih

lemma sendLoop_events (m : RingMember) (pong : Nat → Bool) (msg : Msg) :
    ∀ cs : List Nat, ∀ e ∈ (sendLoop m pong msg cs).1,
      (∃ i, e = Event.sendTo i (Msg.Ping m.id)) ∨ ∃ i, e = Event.sendTo i msg
  | [], e, he => absurd he (by simp [sendLoop])
  | i :: rest, e, he => by
    cases hi : pong i with
    | true =>
      simp only [sendLoop, hi, if_pos, List.mem_cons, List.mem_singleton,
        List.not_mem_nil, or_false] at he
      rcases he with rfl | rfl
      · exact Or.inl ⟨i, rfl⟩
      · exact Or.inr ⟨i, rfl⟩
    | false =>
      simp only [sendLoop, hi] at he
      rcases List.mem_cons.mp he with rfl | hr
      · exact Or.inl ⟨i, rfl⟩
      · exact sendLoop_events m pong msg rest e hr


lemma getD_replicate_false {N i : Nat} :
    (List.replicate N false).getD i false = false := by
  rw [List.getD_eq_getElem?_getD, List.getElem?_replicate]
  split <;> simp

lemma getD_true_lt_length {body : List Bool} {i : Nat}
    (h : body.getD i false = true) : i < body.length := by
  by_contra hge
  rw [List.getD_eq_getElem?_getD, List.getElem?_eq_none (by omega)] at h
  exact Bool.false_ne_true h

lemma getD_set_preserve {body : List Bool} {i j : Nat}
    (h : body.getD i false = true) :
    (body.set j true).getD i false = true := by
  have hlt := getD_true_lt_length h
  rw [List.getD_eq_getElem?_getD, List.getElem?_set]
  rcases eq_or_ne j i with rfl | hne
  · simp [hlt]
  · simpa [hne, List.getD_eq_getElem?_getD] using h

lemma send_election_ballot {N : Nat} {m : RingMember} {pong : Nat → Bool}
    {b : List Bool} {e : Event} {d : Nat} {b2 : List Bool}
    (he : e ∈ (m.send N pong (Msg.Election b)).1)
    (heq : e = Event.sendTo d (Msg.Election b2)) : b2 = b := by
  rcases sendLoop_events m pong (Msg.Election b) (ringOrder N m.id) e he with
    ⟨j, hj⟩ | ⟨j, hj⟩
  · rw [heq] at hj; cases hj
  · rw [heq] at hj
    exact Msg.Election.inj (Event.sendTo.inj hj).2

lemma send_result (N : Nat) (m : RingMember) (pong : Nat → Bool) (msg : Msg) :
    (m.send N pong msg).2 = Except.ok () ∨
      (m.send N pong msg).2 = Except.error (Err.msg "No response") :=
  sendLoop_result m pong msg (ringOrder N m.id)

lemma drop_range_eq (N d : Nat) :
    (List.range N).drop d = List.range' d (N - d) := by
  apply List.ext_getElem
  · simp
  · intro k h1 h2
    simp only [List.getElem_drop, List.getElem_range, List.getElem_range']
    omega

lemma mem_ringOrder {N id x : Nat} (hid : id < N) :
    x ∈ ringOrder N id ↔ x < N ∧ x ≠ id := by
  simp only [ringOrder, List.mem_append, drop_range_eq, List.mem_range',
    List.mem_range]
  constructor
  · rintro (⟨i, hi, h⟩ | h) <;> omega
  · intro h
    rcases Nat.lt_or_ge x (id + 1) with hx | hx
    · right; omega
    · left; exact ⟨x - (id + 1), by omega, by omega⟩

lemma ringOrder_eq_map (N id : Nat) (hid : id < N) :
    ringOrder N id = (List.range (N - 1)).map (fun k => (id + 1 + k) % N) := by
  apply List.ext_getElem
  · simp [ringOrder]; omega
  · intro k h1 h2
    simp only [ringOrder, List.length_append, List.length_drop,
      List.length_range] at h1
    simp only [List.length_map, List.length_range] at h2
    simp only [List.getElem_map, List.getElem_range, ringOrder]
    rcases Nat.lt_or_ge k (N - (id + 1)) with hk | hk
    · rw [List.getElem_append_left (by simpa using hk)]
      simp only [List.getElem_drop, List.getElem_range]
      exact (Nat.mod_eq_of_lt (by omega)).symm
    · rw [List.getElem_append_right (by simpa using hk)]
      simp only [List.length_drop, List.length_range, List.getElem_range]
      rw [Nat.mod_eq_sub_mod (by omega), Nat.mod_eq_of_lt (by omega)]
      omega

/-- C1: a ballot arriving with the receiving member's own bit already set
completes the lap: `vote` computes the winner as the minimum set index and
broadcasts `ElectionResult` solely via the forced-relay path to the fixed
ring successor (no probe traffic at all). -/
theorem vote_lap_complete (N : Nat) (m : RingMember) (pong : Nat → Bool)
    (body : List Bool) (h : body.getD m.id false = true) :
    ∃ w, ballotWinner body = some w ∧
      m.vote N pong body
        = (m.sim_force_send (Msg.ElectionResult w), Except.ok ()) ∧
      body.getD w false = true ∧ ∀ i, body.getD i false = true → w ≤ i := by
  obtain ⟨w, hw⟩ := ballotWinner_isSome h
  obtain ⟨hwt, hwmin⟩ := ballotWinner_eq_some hw
  refine ⟨w, hw, ?_, hwt, hwmin⟩
  have hne : ¬(m.sim_active = false ∧ body = List.replicate N false) := by
    rintro ⟨-, hrep⟩
    rw [hrep, getD_replicate_false] at h
    exact Bool.false_ne_true h
  simp only [RingMember.vote, if_neg hne, h, hw]
  simp

theorem vote_lap_complete_witness :
    ∃ w, ballotWinner [true, true, false] = some w ∧
      (RingMember.mk 1 true 2 0).vote 3 (fun _ => true) [true, true, false]
        = ((RingMember.mk 1 true 2 0).sim_force_send (Msg.ElectionResult w),
           Except.ok ()) ∧
      ([true, true, false] : List Bool).getD w false = true ∧
      ∀ i, ([true, true, false] : List Bool).getD i false = true → w ≤ i :=
  vote_lap_complete 3 (RingMember.mk 1 true 2 0) (fun _ => true)
    [true, true, false] (by decide)

/-- C2: `update_coord id` on a member whose cached `coord_id` equals `id`
only reports `ElectionResult` to the driver (no relay, no state change);
on a member whose `coord_id` differs it updates `coord_id` and forwards
`ElectionResult` to the fixed successor. -/
theorem update_coord_spec (m : RingMember) (id : Nat) :
    (m.coord_id = id →
      m.update_coord id = (m, [Event.simSend (SimMsg.ElectionResult id)])) ∧
    (m.coord_id ≠ id →
      m.update_coord id
        = ({ m with coord_id := id },
           m.sim_force_send (Msg.ElectionResult id))) := by
  constructor <;> intro h <;> simp [RingMember.update_coord, h]

theorem update_coord_spec_witness :
    (RingMember.mk 0 true 1 5).update_coord 5
        = (RingMember.mk 0 true 1 5,
           [Event.simSend (SimMsg.ElectionResult 5)]) ∧
    (RingMember.mk 0 true 1 5).update_coord 3
        = (RingMember.mk 0 true 1 3,
           (RingMember.mk 0 true 1 5).sim_force_send (Msg.ElectionResult 3)) :=
  ⟨(update_coord_spec (RingMember.mk 0 true 1 5) 5).1 rfl,
   (update_coord_spec (RingMember.mk 0 true 1 5) 3).2 (by decide)⟩

/-- C8: a member handling `Ping` replies `Pong` to the sender exactly when
its `sim_active` flag is true, an inactive member emits nothing, and the
member state is unchanged in both cases. -/
theorem handle_ping_spec (N : Nat) (m : RingMember) (pong : Nat → Bool)
    (s_id : Nat) :
    m.handle_msg N pong (Msg.Ping s_id)
      = (m, (if m.sim_active then [Event.sendTo s_id Msg.Pong] else []),
         Except.ok true) := by
  cases h : m.sim_active <;> simp [RingMember.handle_msg, h]

/-- C3: with at least one responsive candidate, `send` probes candidates in
exactly ring order starting at `(id+1) % N` and wrapping (the ring order
never contains the caller itself), pings each candidate in turn, and
forwards the payload to the first candidate answering `Pong`, returning
success. -/
theorem send_spec (N : Nat) (m : RingMember) (pong : Nat → Bool) (msg : Msg)
    (hid : m.id < N) (h : ∃ c ∈ ringOrder N m.id, pong c = true) :
    ringOrder N m.id
        = (List.range (N - 1)).map (fun k => (m.id + 1 + k) % N) ∧
    m.id ∉ ringOrder N m.id ∧
    ∃ pre c post,
      ringOrder N m.id = pre ++ c :: post ∧
      (∀ x ∈ pre, pong x = false) ∧ pong c = true ∧
      m.send N pong msg
        = (pre.map (fun i => Event.sendTo i (Msg.Ping m.id))
            ++ [Event.sendTo c (Msg.Ping m.id), Event.sendTo c msg],
           Except.ok ()) := by
  refine ⟨ringOrder_eq_map N m.id hid, ?_, ?_⟩
  · intro hmem
    exact ((mem_ringOrder hid).mp hmem).2 rfl
  · obtain ⟨pre, c, post, heq, hpre, hc⟩ :=
      exists_first_pong pong (ringOrder N m.id) h
    refine ⟨pre, c, post, heq, hpre, hc, ?_⟩
    rw [RingMember.send, heq]
    exact sendLoop_first_pong m pong msg pre c post hpre hc

theorem send_spec_witness :
    ringOrder 3 0 = (List.range 2).map (fun k => (0 + 1 + k) % 3) ∧
    0 ∉ ringOrder 3 0 ∧
    ∃ pre c post,
      ringOrder 3 0 = pre ++ c :: post ∧
      (∀ x ∈ pre, (fun i => decide (i = 2)) x = false) ∧
      (fun i => decide (i = 2)) c = true ∧
      (RingMember.mk 0 true 1 0).send 3 (fun i => decide (i = 2))
          (Msg.Election [true, false, false])
        = (pre.map (fun i => Event.sendTo i (Msg.Ping 0))
            ++ [Event.sendTo c (Msg.Ping 0),
                Event.sendTo c (Msg.Election [true, false, false])],
           Except.ok ()) :=
  send_spec 3 (RingMember.mk 0 true 1 0) (fun i => decide (i = 2))
    (Msg.Election [true, false, false]) (by decide)
    ⟨2, by decide, by decide⟩

/-- C6: if no candidate in the full ring answers the probe, `send` pings
every candidate in ring order, delivers the payload to nobody (every emitted
event is a `Ping`), and surfaces the error "No response" to the caller. -/
theorem send_exhausted (N : Nat) (m : RingMember) (pong : Nat → Bool)
    (msg : Msg) (h : ∀ c ∈ ringOrder N m.id, pong c = false) :
    m.send N pong msg
        = ((ringOrder N m.id).map (fun i => Event.sendTo i (Msg.Ping m.id)),
           Except.error (Err.msg "No response")) ∧
    (msg ≠ Msg.Ping m.id →
      ∀ e ∈ (m.send N pong msg).1, ∀ d, e ≠ Event.sendTo d msg) := by
  have heq := sendLoop_all_false m pong msg (ringOrder N m.id) h
  refine ⟨heq, fun hmsg e he d hed => ?_⟩
  rw [RingMember.send, heq] at he
  obtain ⟨i, -, hi⟩ := List.mem_map.mp he
  subst hed
  obtain ⟨-, hmsgeq⟩ := Event.sendTo.inj hi
  exact hmsg hmsgeq.symm

theorem send_exhausted_witness :
    (RingMember.mk 1 true 2 0).send 3 (fun _ => false)
        (Msg.Election [true, true, false])
      = ((ringOrder 3 1).map (fun i => Event.sendTo i (Msg.Ping 1)),
         Except.error (Err.msg "No response")) ∧
    (Msg.Election [true, true, false] ≠ Msg.Ping 1 →
      ∀ e ∈ ((RingMember.mk 1 true 2 0).send 3 (fun _ => false)
          (Msg.Election [true, true, false])).1,
        ∀ d, e ≠ Event.sendTo d (Msg.Election [true, true, false])) :=
  send_exhausted 3 (RingMember.mk 1 true 2 0) (fun _ => false)
    (Msg.Election [true, true, false]) (fun _ _ => rfl)

/-- C4 counterexample: an inactive member (id 1) receiving the non-empty
ballot `[true, false, false]` (its own bit unset) marks itself — the
forwarded ballot is `[true, true, false]` — so an inactive member does not
always relay without setting its own bit. -/
theorem vote_inactive_marks_self :
    (RingMember.mk 1 false 2 0).vote 3 (fun _ => true) [true, false, false]
        = ([Event.sendTo 2 (Msg.Ping 1),
            Event.sendTo 2 (Msg.Election [true, true, false])],
           Except.ok ())
    ∧ ([true, false, false] : List Bool).getD 1 false = false := by
  exact ⟨rfl, rfl⟩

/-- C4 (amended): an inactive member receiving a still-empty ballot relays
the ballot onward unchanged via the routing layer — in particular without
setting its own bit. -/
theorem vote_inactive_empty_relays (N : Nat) (m : RingMember)
    (pong : Nat → Bool) (hact : m.sim_active = false) :
    m.vote N pong (List.replicate N false)
      = m.send N pong (Msg.Election (List.replicate N false)) := by
  rw [RingMember.vote, if_pos ⟨hact, rfl⟩]

theorem vote_inactive_empty_relays_witness :
    (RingMember.mk 2 false 0 0).vote 3 (fun _ => true)
        (List.replicate 3 false)
      = (RingMember.mk 2 false 0 0).send 3 (fun _ => true)
          (Msg.Election (List.replicate 3 false)) :=
  vote_inactive_empty_relays 3 (RingMember.mk 2 false 0 0)
    (fun _ => true) rfl

/-- C5 counterexample: member 0 (active) receives the empty ballot with its
own bit unset; the probe finds no responsive candidate, yet `vote` does not
surface the failure — it swallows the error, ends the election itself and
force-relays `ElectionResult 0`, returning `Ok`. -/
theorem vote_forward_failure_ends_election :
    (RingMember.mk 0 true 1 0).vote 3 (fun _ => false) [false, false, false]
        = ([Event.sendTo 1 (Msg.Ping 0), Event.sendTo 2 (Msg.Ping 0),
            Event.sendTo 1 (Msg.ElectionResult 0)],
           Except.ok ())
    ∧ ([false, false, false] : List Bool).getD 0 false = false := by
  exact ⟨rfl, rfl⟩

/-- C5 (amended): on a ballot whose own bit is unset (member active or
ballot non-empty), `vote` sets its own bit and forwards the updated ballot
via the routing layer; if routing succeeds, `vote` does exactly that send;
if routing exhausts the ring, `vote` does not report the error upward but
ends the election itself: it force-relays `ElectionResult` carrying the
minimum set index of the updated ballot and returns success. -/
theorem vote_unset_spec (N : Nat) (m : RingMember) (pong : Nat → Bool)
    (body : List Bool) (hlen : body.length = N) (hid : m.id < N)
    (hbit : body.getD m.id false = false)
    (hguard : m.sim_active = true ∨ body ≠ List.replicate N false) :
    ((m.send N pong (Msg.Election (body.set m.id true))).2 = Except.ok () →
      m.vote N pong body
        = m.send N pong (Msg.Election (body.set m.id true))) ∧
    (∀ e, (m.send N pong (Msg.Election (body.set m.id true))).2
        = Except.error e →
      ∃ w, ballotWinner (body.set m.id true) = some w ∧
        m.vote N pong body
          = ((m.send N pong (Msg.Election (body.set m.id true))).1
              ++ m.sim_force_send (Msg.ElectionResult w), Except.ok ()) ∧
        (body.set m.id true).getD w false = true ∧
        (∀ i, (body.set m.id true).getD i false = true → w ≤ i)) := by
  have hne : ¬(m.sim_active = false ∧ body = List.replicate N false) := by
    rintro ⟨ha, hb⟩
    rcases hguard with hg | hg
    · rw [hg] at ha; exact Bool.false_ne_true ha.symm
    · exact hg hb
  have hset : (body.set m.id true).getD m.id false = true := by
    rw [List.getD_eq_getElem?_getD, List.getElem?_set]
    simp [hlen ▸ hid]
  constructor
  · intro hok
    simp only [RingMember.vote, if_neg hne, hbit, if_pos rfl]
    rw [hok]
    simp
  · intro e herr
    obtain ⟨w, hw⟩ := ballotWinner_isSome hset
    obtain ⟨hwt, hwmin⟩ := ballotWinner_eq_some hw
    refine ⟨w, hw, ?_, hwt, hwmin⟩
    simp only [RingMember.vote, if_neg hne, hbit, if_pos rfl]
    rw [herr, hw]
    simp

/-- C7: ballots are monotone — every `Election` ballot that `vote` sends
out (on any path) keeps every bit that was true in the incoming ballot. -/
theorem vote_monotone (N : Nat) (m : RingMember) (pong : Nat → Bool)
    (body : List Bool) :
    ∀ e ∈ (m.vote N pong body).1, ∀ d b2,
      e = Event.sendTo d (Msg.Election b2) →
      ∀ i, body.getD i false = true → b2.getD i false = true := by
  intro e he d b2 heq i hi
  simp only [RingMember.vote] at he
  split at he
  · rw [send_election_ballot he heq]; exact hi
  · split at he
    · split at he
      · rw [send_election_ballot he heq]; exact getD_set_preserve hi
      · split at he
        · rw [send_election_ballot he heq]; exact getD_set_preserve hi
        · rcases List.mem_append.mp he with h1 | h2
          · rw [send_election_ballot h1 heq]; exact getD_set_preserve hi
          · rw [heq] at h2
            simp only [RingMember.sim_force_send, List.mem_singleton] at h2
            cases (Event.sendTo.inj h2).2
    · split at he
      · exact absurd he (List.not_mem_nil e)
      · rw [heq] at he
        simp only [List.nil_append, RingMember.sim_force_send,
          List.mem_singleton] at he
        cases (Event.sendTo.inj he).2

theorem vote_monotone_witness :
    ([true, true, false] : List Bool).getD 0 false = true :=
  vote_monotone 3 (RingMember.mk 1 false 2 0) (fun _ => true)
    [true, false, false]
    (Event.sendTo 2 (Msg.Election [true, true, false])) (by decide)
    2 [true, true, false] rfl 0 (by decide)

/-- C10: for a well-formed member (`id < N`) and ballot (length `N`), the
`.min().unwrap()` in `vote` is never reached with an empty candidate set:
`vote` never returns the panic error. -/
theorem vote_no_panic (N : Nat) (m : RingMember) (pong : Nat → Bool)
    (body : List Bool) (hlen : body.length = N) (hid : m.id < N) :
    (m.vote N pong body).2 ≠ Except.error Err.panicked := by
  simp only [RingMember.vote]
  split
  · rcases send_result N m pong (Msg.Election body) with hok | herr
    · simp [hok]
    · simp [herr]
  · split
    · rcases send_result N m pong (Msg.Election (body.set m.id true)) with
        hok | herr
      · simp [hok]
      · have hset : (body.set m.id true).getD m.id false = true := by
          rw [List.getD_eq_getElem?_getD, List.getElem?_set]
          simp [hlen ▸ hid]
        obtain ⟨w, hw⟩ := ballotWinner_isSome hset
        simp [herr, hw]
    · rename_i hcond
      have hbit : body.getD m.id false = true := by
        revert hcond
        cases body.getD m.id false <;> simp
      obtain ⟨w, hw⟩ := ballotWinner_isSome hbit
      simp [hw]

theorem vote_no_panic_witness :
    ((RingMember.mk 2 false 0 1).vote 3 (fun _ => false)
        [false, false, false]).2 ≠ Except.error Err.panicked :=
  vote_no_panic 3 (RingMember.mk 2 false 0 1) (fun _ => false)
    [false, false, false] rfl (by decide)

theorem vote_unset_spec_witness :
    ∃ w, ballotWinner (([false, false, false] : List Bool).set 0 true)
          = some w ∧
      (RingMember.mk 0 true 1 0).vote 3 (fun _ => false) [false, false, false]
        = (((RingMember.mk 0 true 1 0).send 3 (fun _ => false)
              (Msg.Election (([false, false, false] : List Bool).set 0 true))).1
            ++ (RingMember.mk 0 true 1 0).sim_force_send
                (Msg.ElectionResult w),
           Except.ok ()) ∧
      (([false, false, false] : List Bool).set 0 true).getD w false = true ∧
      (∀ i, (([false, false, false] : List Bool).set 0 true).getD i false
          = true → w ≤ i) :=
  (vote_unset_spec 3 (RingMember.mk 0 true 1 0) (fun _ => false)
      [false, false, false] rfl (by decide) (by decide) (Or.inl rfl)).2
    (Err.msg "No response") rfl

/-- C9: `SimSeq::new` errors exactly on unequal toggle/wait lengths and
otherwise preserves both sequences; consequently any scenario the file
parser loads successfully has equal lengths (it passes through
`SimSeq::new`), and a parse producing unequal lengths is rejected (the
`unwrap` in `from_file` panics) before the ring starts. -/
theorem simseq_new_spec :
    (∀ (toggles waits : List Nat),
      (toggles.length ≠ waits.length →
        SimSeq.new toggles waits
          = Except.error
              (Err.msg
                "Number of toggles must be equal to the number of waits")) ∧
      (toggles.length = waits.length →
        SimSeq.new toggles waits
          = Except.ok { toggles := toggles, waits := waits })) ∧
    (∀ contents seq, SimSeq.from_file contents = Except.ok seq →
      SimSeq.new seq.toggles seq.waits = Except.ok seq) ∧
    (∀ contents,
      (parseSim contents).1.length ≠ (parseSim contents).2.length →
      SimSeq.from_file contents = Except.error Err.panicked) := by
  refine ⟨fun t w => ⟨fun h => ?_, fun h => ?_⟩, fun c seq h => ?_,
    fun c h => ?_⟩
  · simp [SimSeq.new, h]
  · simp [SimSeq.new, h]
  · simp only [SimSeq.from_file] at h
    cases hnew : SimSeq.new (parseSim c).1 (parseSim c).2 with
    | error e => rw [hnew] at h; cases h
    | ok s =>
      rw [hnew] at h
      injection h with hs
      subst hs
      unfold SimSeq.new at hnew ⊢
      split at hnew
      · cases hnew
      · rename_i hlen
        injection hnew with hseq
        subst hseq
        simpa using hlen
  · simp only [SimSeq.from_file]
    simp [SimSeq.new, h]

theorem simseq_new_spec_witness :
    SimSeq.new [1, 2] [3]
        = Except.error
            (Err.msg
              "Number of toggles must be equal to the number of waits") ∧
    SimSeq.new [2] [1] = Except.ok { toggles := [2], waits := [1] } ∧
    SimSeq.new (SimSeq.mk [2] [1]).toggles (SimSeq.mk [2] [1]).waits
        = Except.ok (SimSeq.mk [2] [1]) ∧
    SimSeq.from_file "1" = Except.error Err.panicked :=
  ⟨(simseq_new_spec.1 [1, 2] [3]).1 (by decide),
   (simseq_new_spec.1 [2] [1]).2 rfl,
   simseq_new_spec.2.1 "1\n2\n" (SimSeq.mk [2] [1]) rfl,
   simseq_new_spec.2.2 "1" (by decide)⟩
